import Mathlib

/-!
Shallow embedding of the opportunity detection and scoring pipeline of the
Automated-Arbitrage-System repository, together with proofs that settle the
frozen claims about it.

Embedding conventions:
- Python floats are modelled as rationals.
- Database queries are modelled as explicit inputs: the recent observation
  window is passed as a list (wrapped in Except to model a failing store),
  exchange-rate lookups as an oracle function, fee-schedule lookups as a
  function from marketplace id to an optional schedule.
- try/except blocks are modelled with Except inputs or with the documented
  fallback value.
- Timestamps are rationals measured in hours.
-/

namespace Arbitrage

/-! ## Data model (app/models/models.py) -/

/-- PricePoint row, joined with the name of its marketplace (the detector uses
price, currency, product_id, marketplace_id, the marketplace name and the
timestamp). The marketplace join can be absent, hence the Option. -/
structure PricePoint where
  id : Nat
  product_id : Nat
  marketplace_id : Nat
  marketplace_name : Option String
  price : ℚ
  currency : String
  timestamp : ℚ
deriving DecidableEq, Repr

/-- ArbitrageOpportunity record as built by the detector: ids of the two price
points, margin, absolute profit, risk score, the status column (whose database
default is active), and the gross profit / total fees stored as metadata.
Wall-clock fields (detected_at, expires_at) are outside the modelled claims. -/
structure Opportunity where
  source_price_id : Nat
  target_price_id : Nat
  profit_margin : ℚ
  absolute_profit : ℚ
  risk_score : ℚ
  status : String
  gross_profit : ℚ
  total_fees : ℚ
deriving DecidableEq, Repr

/-! ## FeeCalculator (app/utils/fee_calculator.py) -/

/-- Transaction fee entry of a fee schedule: the source uses the fixed amount
when a fixed key is present, otherwise the percentage key. -/
inductive TransactionFee
  | fixed (amount : ℚ)
  | percentage (pct : ℚ)
deriving DecidableEq, Repr

/-- Per-marketplace fee schedule (the fees entry of Marketplace.config);
each component is optional exactly as in the source. -/
structure FeeSchedule where
  platform_fee : Option ℚ
  transaction_fee : Option TransactionFee
  payment_fee : Option ℚ
deriving DecidableEq, Repr

/-- Fee-schedule lookup by marketplace id; marketplaces without a schedule map
to none (and contribute zero fees). -/
abbrev FeeConfigs := Nat → Option FeeSchedule

/-- Result of calculate_fees: the total together with the breakdown entries. -/
structure FeeResult where
  total : ℚ
  platform_fee : Option ℚ
  transaction_fee : Option ℚ
  payment_fee : Option ℚ
deriving DecidableEq, Repr

/-- FeeCalculator.calculate_fees: platform fee and payment fee are percentages
of the price, the transaction fee is either a fixed amount or a percentage;
the fees present are summed. A marketplace without a schedule yields zero. -/
def calculate_fees (configs : FeeConfigs) (marketplace_id : Nat) (price : ℚ) :
    FeeResult :=
  match configs marketplace_id with
  | none => { total := 0, platform_fee := none, transaction_fee := none, payment_fee := none }
  | some fees =>
    let pf := fees.platform_fee.map (fun p => price * (p / 100))
    let tf := fees.transaction_fee.map (fun t =>
      match t with
      | .fixed a => a
      | .percentage p => price * (p / 100))
    let yf := fees.payment_fee.map (fun p => price * (p / 100))
    { total := pf.getD 0 + tf.getD 0 + yf.getD 0,
      platform_fee := pf, transaction_fee := tf, payment_fee := yf }

/-- Result record of calculate_net_profit. -/
structure ProfitData where
  gross_profit : ℚ
  total_fees : ℚ
  net_profit : ℚ
  buy_fees : FeeResult
  sell_fees : FeeResult
deriving DecidableEq, Repr

/-- FeeCalculator.calculate_net_profit, translated exactly as written: the
variable named buy_fees is computed from the TARGET marketplace id applied to
the buy price, and the variable named sell_fees from the SOURCE marketplace id
applied to the sell price (the caller passes the buy side as source and the
sell side as target, so the two schedules are crossed). -/
def calculate_net_profit (configs : FeeConfigs) (buy_price sell_price : ℚ)
    (source_marketplace_id target_marketplace_id : Nat) : ProfitData :=
  let buy_fees := calculate_fees configs target_marketplace_id buy_price
  let sell_fees := calculate_fees configs source_marketplace_id sell_price
  let gross_profit := sell_price - buy_price
  let total_fees := buy_fees.total + sell_fees.total
  { gross_profit := gross_profit, total_fees := total_fees,
    net_profit := gross_profit - total_fees,
    buy_fees := buy_fees, sell_fees := sell_fees }

/-! ## CurrencyConverter (app/utils/currency_converter.py) -/

/-- Resolved recent exchange-rate lookup: the in-memory one-hour cache plus the
database query of the most recent rate within the validity window, abstracted
as a single oracle from the currency pair to an optional rate. -/
abbrev RateOracle := String → String → Option ℚ

/-- BASE_CURRENCY from config.py. -/
def BASE_CURRENCY : String := "USD"

/-- CurrencyConverter.convert: identity on same-currency calls, then the stored
rate, then the two hard-coded fallback pairs (USD to EUR at 0.93 and EUR to
USD at 1.08), and otherwise none. -/
def convert (rates : RateOracle) (amount : ℚ)
    (from_currency to_currency : String) : Option ℚ :=
  if from_currency = to_currency then some amount
  else
    match rates from_currency to_currency with
    | some rate => some (amount * rate)
    | none =>
      if from_currency = "USD" ∧ to_currency = "EUR" then
        some (amount * (93 / 100))
      else if from_currency = "EUR" ∧ to_currency = "USD" then
        some (amount * (108 / 100))
      else none

/-- Conversion step find_opportunities applies to each observation before any
comparison: the price is kept unchanged when the currency equals the literal
EUR, and otherwise converted with the default target currency of convert,
which is BASE_CURRENCY (USD per config.py). -/
def detector_converted_price (rates : RateOracle) (p : PricePoint) : Option ℚ :=
  if p.currency ≠ "EUR" then convert rates p.price p.currency BASE_CURRENCY
  else some p.price

/-! ## Risk scoring (ArbitrageDetector._calculate_risk_score and helpers) -/

/-- Values of the four risk factors gathered by _calculate_risk_score. The
volatility and currency-risk sub-computations (numpy standard deviations over
query results) are abstracted as the rational values they produce. -/
structure RiskFactors where
  price_volatility : ℚ
  marketplace_reliability : ℚ
  time_sensitivity : ℚ
  currency_risk : ℚ
deriving DecidableEq, Repr

/-- Weighted sum of the four risk factors with the fixed weights
0.3 / 0.3 / 0.2 / 0.2 from the source. -/
def risk_weighted_sum (f : RiskFactors) : ℚ :=
  f.price_volatility * (3 / 10) + f.marketplace_reliability * (3 / 10) +
    f.time_sensitivity * (2 / 10) + f.currency_risk * (2 / 10)

/-- ArbitrageDetector._calculate_risk_score: on success the weighted sum is
clamped into the unit interval with min/max; any exception inside the body is
caught and the neutral value 0.5 is returned. The Except input carries the
outcome of the factor computations. -/
def calculate_risk_score (factors : Except String RiskFactors) : ℚ :=
  match factors with
  | .ok f => min (max (risk_weighted_sum f) 0) 1
  | .error _ => 1 / 2

/-- ArbitrageDetector._get_marketplace_reliability: a constant 0.8 for every
marketplace id, as in the source (the comment there says this could be based
on historical transactions, for now a default value). -/
def get_marketplace_reliability (_marketplace_id : Nat) : ℚ := 4 / 5

/-! ## ArbitrageDetector._analyze_opportunity -/

/-- Detector thresholds from ARBITRAGE_CONFIG. -/
structure DetectorConfig where
  min_profit_margin : ℚ
  min_absolute_profit : ℚ
  max_investment : ℚ
deriving DecidableEq, Repr

/-- ArbitrageDetector._analyze_opportunity: reject the sentinel price -1 on
either side, compute profit data from the converted prices, compute the margin
as net profit over converted buy price times 100, reject strictly below either
configured minimum, and otherwise build the opportunity record (the risk score
already computed by _calculate_risk_score is passed in as a value). -/
def analyze_opportunity (cfg : DetectorConfig) (configs : FeeConfigs)
    (risk_score : ℚ) (source_price target_price : PricePoint)
    (converted_buy_price converted_sell_price : ℚ) : Option Opportunity :=
  if source_price.price = -1 ∨ target_price.price = -1 then none
  else if (calculate_net_profit configs converted_buy_price converted_sell_price
        source_price.marketplace_id target_price.marketplace_id).net_profit
          / converted_buy_price * 100 < cfg.min_profit_margin
      ∨ (calculate_net_profit configs converted_buy_price converted_sell_price
        source_price.marketplace_id target_price.marketplace_id).net_profit
          < cfg.min_absolute_profit then none
  else some {
    source_price_id := source_price.id,
    target_price_id := target_price.id,
    profit_margin := (calculate_net_profit configs converted_buy_price
      converted_sell_price source_price.marketplace_id
      target_price.marketplace_id).net_profit / converted_buy_price * 100,
    absolute_profit := (calculate_net_profit configs converted_buy_price
      converted_sell_price source_price.marketplace_id
      target_price.marketplace_id).net_profit,
    risk_score := risk_score,
    status := "active",
    gross_profit := (calculate_net_profit configs converted_buy_price
      converted_sell_price source_price.marketplace_id
      target_price.marketplace_id).gross_profit,
    total_fees := (calculate_net_profit configs converted_buy_price
      converted_sell_price source_price.marketplace_id
      target_price.marketplace_id).total_fees }

/-! ## ArbitrageDetector.find_opportunities

The detection pass is a double loop with two pieces of loop state: the list of
accepted opportunities and the set of processed unordered pair keys. The free
to play classification is passed as a function (its cache-backed computation
is embedded separately below; the checked_free_games set of the source only
suppresses repeated logging, since it holds exactly the product ids for which
the classification already returned true, so the skip it causes coincides with
the classification itself). The risk scorer is passed as a function of the two
observations, as its value never influences acceptance. -/

/-- Bundle of the collaborators and configuration a detector instance holds. -/
structure Detector where
  cfg : DetectorConfig
  rates : RateOracle
  fee_configs : FeeConfigs
  risk_of : PricePoint → PricePoint → ℚ
  free_to_play : Nat → Bool

/-- Unordered pair key (min id, max id) used for deduplication. -/
def pair_key (s t : PricePoint) : Nat × Nat := (min s.id t.id, max s.id t.id)

/-- Unordered pair key of an emitted opportunity record. -/
def opp_key (o : Opportunity) : Nat × Nat :=
  (min o.source_price_id o.target_price_id, max o.source_price_id o.target_price_id)

/-- Loop state of find_opportunities: accepted opportunities and processed
pair keys. -/
abbrev DetState := List Opportunity × List (Nat × Nat)

/-- Body of the inner loop over target prices: skip on failed conversion, skip
unless the converted sell price strictly exceeds the converted buy price, skip
already processed pair keys, and otherwise analyze; on success append the
opportunity and record the pair key. -/
def target_step (d : Detector) (s : PricePoint) (cb : ℚ) (acc : DetState)
    (t : PricePoint) : DetState :=
  match detector_converted_price d.rates t with
  | none => acc
  | some cs =>
    if cs ≤ cb then acc
    else if pair_key s t ∈ acc.2 then acc
    else
      match analyze_opportunity d.cfg d.fee_configs (d.risk_of s t) s t cb cs with
      | none => acc
      | some o => (acc.1 ++ [o], acc.2 ++ [pair_key s t])

/-- Target query of the inner loop: same product, different marketplace,
within the same window (the window list itself). -/
def targets_of (recent : List PricePoint) (s : PricePoint) : List PricePoint :=
  recent.filter (fun t =>
    t.product_id == s.product_id && t.marketplace_id != s.marketplace_id)

/-- Body of the outer loop over source prices: skip free to play products,
skip on failed conversion or a converted buy price above max_investment, and
otherwise run the inner loop over the target query. -/
def source_step (d : Detector) (recent : List PricePoint) (acc : DetState)
    (s : PricePoint) : DetState :=
  if d.free_to_play s.product_id then acc
  else
    match detector_converted_price d.rates s with
    | none => acc
    | some cb =>
      if cb > d.cfg.max_investment then acc
      else (targets_of recent s).foldl (target_step d s cb) acc

/-- ArbitrageDetector.find_opportunities: the whole body is wrapped in a
try/except that returns the empty list on any error, in particular when the
initial observation query raises; this is modelled by the Except input. -/
def find_opportunities (d : Detector) (window : Except String (List PricePoint)) :
    List Opportunity :=
  match window with
  | .error _ => []
  | .ok recent => (recent.foldl (source_step d recent) ([], [])).1

/-! ### Order-free reformulation of the detection pass

The following definitions restate the double loop without the processed-pairs
state; the fold is proved equal to them when the observation ids are distinct,
which is what the deduplication and order-independence claims rest on. -/

/-- Outcome of evaluating one ordered candidate pair, ignoring the
processed-pairs check. -/
def candidate_opp (d : Detector) (s : PricePoint) (cb : ℚ) (t : PricePoint) :
    Option Opportunity :=
  match detector_converted_price d.rates t with
  | none => none
  | some cs =>
    if cs ≤ cb then none
    else analyze_opportunity d.cfg d.fee_configs (d.risk_of s t) s t cb cs

/-- Opportunities one source price contributes, ignoring the processed-pairs
check. -/
def source_opps (d : Detector) (recent : List PricePoint) (s : PricePoint) :
    List Opportunity :=
  if d.free_to_play s.product_id then []
  else
    match detector_converted_price d.rates s with
    | none => []
    | some cb =>
      if cb > d.cfg.max_investment then []
      else (targets_of recent s).filterMap (candidate_opp d s cb)

/-- Order-free restatement of a full pass. -/
def find_opportunities_unordered (d : Detector) (recent : List PricePoint) :
    List Opportunity :=
  recent.flatMap (source_opps d recent)

/-- Pair key recorded by a successful evaluation of one ordered candidate. -/
def success_key (d : Detector) (s : PricePoint) (cb : ℚ) (t : PricePoint) :
    Option (Nat × Nat) :=
  (candidate_opp d s cb t).map (fun _ => pair_key s t)

/-- Pair keys one source price records. -/
def source_keys (d : Detector) (recent : List PricePoint) (s : PricePoint) :
    List (Nat × Nat) :=
  if d.free_to_play s.product_id then []
  else
    match detector_converted_price d.rates s with
    | none => []
    | some cb =>
      if cb > d.cfg.max_investment then []
      else (targets_of recent s).filterMap (success_key d s cb)

/-- Pair keys recorded while processing a list of source prices. -/
def all_keys (d : Detector) (recent : List PricePoint) (ss : List PricePoint) :
    List (Nat × Nat) :=
  ss.flatMap (source_keys d recent)

/-! ## Free to play classification (ArbitrageDetector._is_free_to_play) -/

/-- Store contents the classifier queries: the existing product ids and the
price point table. -/
structure FtpStore where
  products : List Nat
  price_points : List PricePoint

/-- Process-wide FREE_TO_PLAY_CACHE, an association list from product id to
the cached classification. -/
abbrev FtpCache := List (Nat × Bool)

/-- Trusted major marketplaces of the classifier. -/
def TRUSTED_MARKETPLACES : List String := ["steam", "epic games", "origin"]

/-- Python str.lower applied to a marketplace name. -/
def str_lower (s : String) : String := ⟨s.data.map Char.toLower⟩

/-- Price points of one product within the last 24 hours. -/
def recent_24h (db : FtpStore) (now : ℚ) (product_id : Nat) : List PricePoint :=
  db.price_points.filter (fun p =>
    p.product_id == product_id && decide (now - 24 ≤ p.timestamp))

/-- Test of one price point inside the classifier loop: price points without
marketplace info are skipped, and a trusted marketplace with a price strictly
below 1.0 marks the product free to play. -/
def ftp_qualifies (p : PricePoint) : Bool :=
  match p.marketplace_name with
  | none => false
  | some n => TRUSTED_MARKETPLACES.contains (str_lower n) && decide (p.price < 1)

/-- Cache-free core of _is_free_to_play: unknown products and products without
any price record in the last 24 hours are not classified as free to play;
otherwise the product is free to play when any recent price point qualifies. -/
def classify_free_to_play (db : FtpStore) (now : ℚ) (product_id : Nat) : Bool :=
  if ¬ db.products.contains product_id then false
  else if (recent_24h db now product_id).isEmpty then false
  else (recent_24h db now product_id).any ftp_qualifies

/-- ArbitrageDetector._is_free_to_play: a cache hit returns the cached value;
otherwise the classification is computed, and it is written to the cache
exactly when the product exists and has at least one price record in the
window (the two early returns of the source leave the cache untouched). -/
def is_free_to_play (db : FtpStore) (now : ℚ) (cache : FtpCache)
    (product_id : Nat) : Bool × FtpCache :=
  match cache.lookup product_id with
  | some b => (b, cache)
  | none =>
    if ¬ db.products.contains product_id then (false, cache)
    else if (recent_24h db now product_id).isEmpty then (false, cache)
    else ((recent_24h db now product_id).any ftp_qualifies,
      (product_id, (recent_24h db now product_id).any ftp_qualifies) :: cache)

/-- Classification rule as the claim states it, written from the words of the
spec for comparison with classify_free_to_play: excluded when the most recent
observation of some trusted marketplace within 24 hours reports a price below
the threshold. A price point witnesses this when it qualifies and no later
observation of the product exists on its marketplace within the window. -/
def classify_free_to_play_claim (db : FtpStore) (now : ℚ) (product_id : Nat) :
    Bool :=
  let recent := recent_24h db now product_id
  recent.any (fun p =>
    ftp_qualifies p && recent.all (fun q =>
      q.marketplace_id != p.marketplace_id || decide (q.timestamp ≤ p.timestamp)))

/-! ## Opportunity cleanup (ArbitrageDetector.cleanup_free_to_play_opportunities) -/

/-- Stored opportunity as the cleanup pass sees it: its id, the product id
reached through its source price, and its status column. -/
structure StoredOpportunity where
  id : Nat
  product_id : Nat
  status : String
deriving DecidableEq, Repr

/-- State of the cleanup pass: the rewritten opportunity rows, the counter of
newly expired opportunities, and the classification cache. -/
structure CleanupState where
  opps : List StoredOpportunity
  count : Nat
  cache : FtpCache

/-- Body of the cleanup loop: only active opportunities are examined (the
query filters on status); an active opportunity whose product is classified
free to play is set to expired and counted. The cache is threaded through the
classification calls. -/
def cleanup_step (db : FtpStore) (now : ℚ) (acc : CleanupState)
    (o : StoredOpportunity) : CleanupState :=
  if o.status = "active" then
    if (is_free_to_play db now acc.cache o.product_id).1 then
      { opps := acc.opps ++ [{ o with status := "expired" }],
        count := acc.count + 1,
        cache := (is_free_to_play db now acc.cache o.product_id).2 }
    else
      { opps := acc.opps ++ [o], count := acc.count,
        cache := (is_free_to_play db now acc.cache o.product_id).2 }
  else
    { opps := acc.opps ++ [o], count := acc.count, cache := acc.cache }

/-- ArbitrageDetector.cleanup_free_to_play_opportunities over the stored
opportunity rows: returns the updated rows, the number of opportunities newly
marked expired, and the updated cache. -/
def cleanup_free_to_play_opportunities (db : FtpStore) (now : ℚ)
    (cache : FtpCache) (opps : List StoredOpportunity) : CleanupState :=
  opps.foldl (cleanup_step db now) { opps := [], count := 0, cache := cache }

/-! ## Pattern detection (PriceAnalyzer._detect_patterns) -/

/-- Kind of a detected reversal. -/
inductive PatternType
  | peak
  | trough
deriving DecidableEq, Repr

/-- One detected pattern entry: its kind, index, and the price there. -/
structure PricePattern where
  ptype : PatternType
  position : Nat
  value : ℚ
deriving DecidableEq, Repr

/-- Peak test of the source at one index: the price strictly exceeds the
prices at the two neighbours on each side. -/
abbrev peak_cond (prices : List ℚ) (i : Nat) : Prop :=
  prices.getD i 0 > prices.getD (i - 1) 0 ∧ prices.getD i 0 > prices.getD (i - 2) 0
    ∧ prices.getD i 0 > prices.getD (i + 1) 0 ∧ prices.getD i 0 > prices.getD (i + 2) 0

/-- Trough test of the source at one index: the price is strictly below the
prices at the two neighbours on each side. -/
abbrev trough_cond (prices : List ℚ) (i : Nat) : Prop :=
  prices.getD i 0 < prices.getD (i - 1) 0 ∧ prices.getD i 0 < prices.getD (i - 2) 0
    ∧ prices.getD i 0 < prices.getD (i + 1) 0 ∧ prices.getD i 0 < prices.getD (i + 2) 0

/-- Checks the source performs at one index of the price series: an entry is
appended when the price strictly exceeds (peak) or is strictly below (trough)
the prices at the four surrounding indices. Indexing is via getD, always used
in bounds by the caller. -/
def pattern_checks_at (prices : List ℚ) (i : Nat) : List PricePattern :=
  (if peak_cond prices i then [⟨.peak, i, prices.getD i 0⟩] else [])
  ++ (if trough_cond prices i then [⟨.trough, i, prices.getD i 0⟩] else [])

/-- PriceAnalyzer._detect_patterns: series with fewer than 10 points yield no
patterns at all; otherwise every index of range(2, len - 2) is checked. -/
def detect_patterns (prices : List ℚ) : List PricePattern :=
  if prices.length < 10 then []
  else (List.range' 2 (prices.length - 4)).flatMap (pattern_checks_at prices)

/-! ## Concrete instances used in counterexamples and witnesses -/

/-- Fee configuration with a single scheduled marketplace: marketplace 1
charges a 10 percent platform fee, every other marketplace has no schedule. -/
def fees_mkt1_only : FeeConfigs := fun marketplace_id =>
  if marketplace_id = 1 then
    some { platform_fee := some 10, transaction_fee := none, payment_fee := none }
  else none

/-- Fee configuration with no schedule anywhere (all fees zero). -/
def fees_none : FeeConfigs := fun _ => none

/-- Detector instance with no rates on record, no fee schedules, neutral risk
and no excluded products, at the default thresholds of ARBITRAGE_CONFIG. -/
def example_detector : Detector :=
  { cfg := { min_profit_margin := 10, min_absolute_profit := 5, max_investment := 1000 },
    rates := fun _ _ => none,
    fee_configs := fees_none,
    risk_of := fun _ _ => 1 / 2,
    free_to_play := fun _ => false }

/-- Observation of product 7 at 20 USD on marketplace 1. -/
def obs_a : PricePoint :=
  { id := 1, product_id := 7, marketplace_id := 1,
    marketplace_name := some "MarketA", price := 20, currency := "USD",
    timestamp := 0 }

/-- Observation of product 7 at 30 USD on marketplace 2. -/
def obs_b : PricePoint :=
  { id := 2, product_id := 7, marketplace_id := 2,
    marketplace_name := some "MarketB", price := 30, currency := "USD",
    timestamp := 0 }

/-! ## Claim theorems -/

/-- C1 (code_bug evidence): calculate_net_profit applies the fee schedules to
the wrong sides. With buy price 100 on marketplace 1 (10 percent platform
fee) and sell price 200 on marketplace 2 (no schedule), the code charges
total fees of 20 (the buy marketplace schedule applied to the sell price),
while the claimed attribution (buy schedule on the buy price, sell schedule
on the sell price) yields 10; the net profit accordingly comes out as 80
rather than the claimed 90. The gross profit conjunct of the claim does hold. -/
theorem calculate_net_profit_crosses_fee_schedules :
    (calculate_net_profit fees_mkt1_only 100 200 1 2).gross_profit = 100
    ∧ (calculate_net_profit fees_mkt1_only 100 200 1 2).total_fees = 20
    ∧ (calculate_net_profit fees_mkt1_only 100 200 1 2).net_profit = 80
    ∧ (calculate_fees fees_mkt1_only 1 100).total
        + (calculate_fees fees_mkt1_only 2 200).total = 10 := by
  norm_num [calculate_net_profit, calculate_fees, fees_mkt1_only]

/-- C3: the risk score is clamped into the unit interval for every outcome of
the factor computations, and an internal exception yields exactly 0.5, so the
scorer never propagates an error. -/
theorem risk_score_bounds_and_neutral_default :
    (∀ r : Except String RiskFactors,
      0 ≤ calculate_risk_score r ∧ calculate_risk_score r ≤ 1)
    ∧ ∀ e : String, calculate_risk_score (.error e) = 1 / 2 := by
  refine ⟨fun r => ?_, fun _ => rfl⟩
  cases r with
  | error e =>
    constructor <;> norm_num [calculate_risk_score]
  | ok f =>
    constructor
    · exact le_min (le_max_right _ _) (by norm_num)
    · exact min_le_right _ _

/-- C10: the marketplace reliability factor is the constant 0.8 for every
marketplace id, so with weight 0.3 it contributes exactly 0.24 to the weighted
sum of every successfully computed risk score. -/
theorem marketplace_reliability_constant_contribution :
    (∀ marketplace_id : Nat, get_marketplace_reliability marketplace_id = 4 / 5)
    ∧ ∀ (marketplace_id : Nat) (pv ts cr : ℚ),
        risk_weighted_sum
          { price_volatility := pv,
            marketplace_reliability := get_marketplace_reliability marketplace_id,
            time_sensitivity := ts, currency_risk := cr }
          = 24 / 100 + (pv * (3 / 10) + ts * (2 / 10) + cr * (2 / 10)) := by
  refine ⟨fun _ => rfl, fun _ pv ts cr => ?_⟩
  simp only [risk_weighted_sum, get_marketplace_reliability]
  ring

/-- C8 (counterexample): when the initial observation query fails, the claim
says the pass aborts with a surfaced error; instead the embedded
find_opportunities returns the plain empty list, indistinguishable from a
pass that found no opportunities. -/
theorem find_opportunities_returns_empty_on_store_failure :
    find_opportunities example_detector (.error "database unavailable") = [] := rfl

/-- C8 (amended): when the backing store fails at pass start, the except
handler of find_opportunities swallows the error after logging and returns
the empty list for every detector instance. -/
theorem find_opportunities_swallows_store_failure :
    ∀ (d : Detector) (e : String), find_opportunities d (.error e) = [] :=
  fun _ _ => rfl

/-- C6: with the margin computed as net profit over converted buy price times
100, a pair at exactly min_profit_margin whose net profit reaches
min_absolute_profit is accepted, while a margin strictly below
min_profit_margin, or a net profit strictly below min_absolute_profit, is
rejected. -/
theorem analyze_opportunity_boundary_inclusive (cfg : DetectorConfig)
    (configs : FeeConfigs) (risk_score : ℚ) (s t : PricePoint) (cb cs : ℚ)
    (hs : s.price ≠ -1) (ht : t.price ≠ -1) :
    ((calculate_net_profit configs cb cs s.marketplace_id t.marketplace_id).net_profit
          / cb * 100 = cfg.min_profit_margin →
      cfg.min_absolute_profit
          ≤ (calculate_net_profit configs cb cs s.marketplace_id t.marketplace_id).net_profit →
      (analyze_opportunity cfg configs risk_score s t cb cs).isSome = true)
    ∧ ((calculate_net_profit configs cb cs s.marketplace_id t.marketplace_id).net_profit
          / cb * 100 < cfg.min_profit_margin →
      analyze_opportunity cfg configs risk_score s t cb cs = none)
    ∧ ((calculate_net_profit configs cb cs s.marketplace_id t.marketplace_id).net_profit
          < cfg.min_absolute_profit →
      analyze_opportunity cfg configs risk_score s t cb cs = none) := by
  unfold analyze_opportunity
  rw [if_neg (by simp [hs, ht])]
  refine ⟨fun hm hp => ?_, fun hm => ?_, fun hp => ?_⟩
  · rw [if_neg]
    · rfl
    · push_neg
      exact ⟨by rw [hm], hp⟩
  · rw [if_pos (Or.inl hm)]
  · rw [if_pos (Or.inr hp)]

/-- Witness for the boundary theorem: buy 20, sell 30, no fees, so the margin
is exactly 50 percent; with min_profit_margin 50 and min_absolute_profit 5
the pair is accepted. -/
theorem analyze_opportunity_boundary_inclusive_witness :
    (obs_a.price ≠ -1 ∧ obs_b.price ≠ -1)
    ∧ ((calculate_net_profit fees_none 20 30 obs_a.marketplace_id obs_b.marketplace_id).net_profit
          / 20 * 100
          = ({ min_profit_margin := 50, min_absolute_profit := 5,
               max_investment := 1000 } : DetectorConfig).min_profit_margin →
        ({ min_profit_margin := 50, min_absolute_profit := 5,
           max_investment := 1000 } : DetectorConfig).min_absolute_profit
          ≤ (calculate_net_profit fees_none 20 30 obs_a.marketplace_id obs_b.marketplace_id).net_profit →
        (analyze_opportunity
            { min_profit_margin := 50, min_absolute_profit := 5, max_investment := 1000 }
            fees_none (1 / 2) obs_a obs_b 20 30).isSome = true)
    ∧ (analyze_opportunity
          { min_profit_margin := 50, min_absolute_profit := 5, max_investment := 1000 }
          fees_none (1 / 2) obs_a obs_b 20 30).isSome = true := by
  have h1 : obs_a.price ≠ -1 := by norm_num [obs_a]
  have h2 : obs_b.price ≠ -1 := by norm_num [obs_b]
  have h := analyze_opportunity_boundary_inclusive
    { min_profit_margin := 50, min_absolute_profit := 5, max_investment := 1000 }
    fees_none (1 / 2) obs_a obs_b 20 30 h1 h2
  refine ⟨⟨h1, h2⟩, h.1, h.1 ?_ ?_⟩
  · norm_num [calculate_net_profit, calculate_fees, fees_none]
  · norm_num [calculate_net_profit, calculate_fees, fees_none]

/-! ## Pattern detection lemmas and claim C9 -/

/-- Membership in the per-index checks. -/
theorem mem_pattern_checks_at (prices : List ℚ) (i : Nat) (pat : PricePattern) :
    pat ∈ pattern_checks_at prices i ↔
      ((pat = ⟨.peak, i, prices.getD i 0⟩ ∧ peak_cond prices i)
        ∨ (pat = ⟨.trough, i, prices.getD i 0⟩ ∧ trough_cond prices i)) := by
  unfold pattern_checks_at
  rw [List.mem_append]
  constructor
  · rintro (hmem | hmem)
    · left
      split_ifs at hmem with hp
      · simp only [List.mem_singleton] at hmem
        exact ⟨hmem, hp⟩
      · simp at hmem
    · right
      split_ifs at hmem with ht
      · simp only [List.mem_singleton] at hmem
        exact ⟨hmem, ht⟩
      · simp at hmem
  · rintro (⟨rfl, hp⟩ | ⟨rfl, ht⟩)
    · left
      rw [if_pos hp]
      exact List.mem_singleton_self _
    · right
      rw [if_pos ht]
      exact List.mem_singleton_self _

/-- C9 (counterexample): the claim promises peak reports for every series
with at least 5 points, but the source returns no patterns for any series
shorter than 10 points; the 5-point series 1,1,5,1,1 has an interior point
strictly above its four neighbours yet yields the empty pattern list. -/
theorem detect_patterns_ignores_five_point_series :
    ([1, 1, 5, 1, 1] : List ℚ).length = 5
    ∧ peak_cond [1, 1, 5, 1, 1] 2
    ∧ detect_patterns [1, 1, 5, 1, 1] = [] := by
  refine ⟨rfl, ?_, rfl⟩
  refine ⟨?_, ?_, ?_, ?_⟩ <;> norm_num [List.getD]

/-- C9 (amended): for every series with at least 10 points, an entry is
reported at an interior index (two neighbours on each side) precisely when it
is a peak strictly above, or a trough strictly below, the four surrounding
prices; its recorded value is the price at that index. -/
theorem detect_patterns_characterization (prices : List ℚ)
    (h : 10 ≤ prices.length) (pat : PricePattern) :
    pat ∈ detect_patterns prices ↔
      (2 ≤ pat.position ∧ pat.position + 2 < prices.length
        ∧ pat.value = prices.getD pat.position 0
        ∧ ((pat.ptype = .peak ∧ peak_cond prices pat.position)
            ∨ (pat.ptype = .trough ∧ trough_cond prices pat.position))) := by
  unfold detect_patterns
  rw [if_neg (by omega), List.mem_flatMap]
  constructor
  · rintro ⟨i, hi, hmem⟩
    rw [List.mem_range'_1] at hi
    rw [mem_pattern_checks_at] at hmem
    rcases hmem with ⟨rfl, hc⟩ | ⟨rfl, hc⟩
    · exact ⟨hi.1, show i + 2 < prices.length by omega, rfl, Or.inl ⟨rfl, hc⟩⟩
    · exact ⟨hi.1, show i + 2 < prices.length by omega, rfl, Or.inr ⟨rfl, hc⟩⟩
  · rintro ⟨h1, h2, hv, hcase⟩
    refine ⟨pat.position, ?_, ?_⟩
    · rw [List.mem_range'_1]
      omega
    · rw [mem_pattern_checks_at]
      rcases hcase with ⟨hty, hc⟩ | ⟨hty, hc⟩
      · left
        refine ⟨?_, hc⟩
        cases pat
        simp_all
      · right
        refine ⟨?_, hc⟩
        cases pat
        simp_all

/-- Witness for the characterization on a concrete 10-point series: the point
at index 2 with value 5 is reported as a peak. -/
theorem detect_patterns_characterization_witness :
    10 ≤ ([1, 1, 5, 1, 1, 1, 1, 1, 1, 1] : List ℚ).length
    ∧ ((⟨.peak, 2, 5⟩ : PricePattern)
          ∈ detect_patterns [1, 1, 5, 1, 1, 1, 1, 1, 1, 1] ↔
        (2 ≤ (⟨.peak, 2, 5⟩ : PricePattern).position
          ∧ (⟨.peak, 2, 5⟩ : PricePattern).position + 2
              < ([1, 1, 5, 1, 1, 1, 1, 1, 1, 1] : List ℚ).length
          ∧ (⟨.peak, 2, 5⟩ : PricePattern).value
              = ([1, 1, 5, 1, 1, 1, 1, 1, 1, 1] : List ℚ).getD
                  (⟨.peak, 2, 5⟩ : PricePattern).position 0
          ∧ (((⟨.peak, 2, 5⟩ : PricePattern).ptype = .peak
                ∧ peak_cond [1, 1, 5, 1, 1, 1, 1, 1, 1, 1]
                    (⟨.peak, 2, 5⟩ : PricePattern).position)
              ∨ ((⟨.peak, 2, 5⟩ : PricePattern).ptype = .trough
                ∧ trough_cond [1, 1, 5, 1, 1, 1, 1, 1, 1, 1]
                    (⟨.peak, 2, 5⟩ : PricePattern).position)))) :=
  ⟨by decide, detect_patterns_characterization _ (by decide) _⟩

/-! ## Cache lemmas for the free to play classifier -/

/-- Consistency of the classification cache with the store: every cached
entry records the cache-free classification of its product. -/
def cache_consistent (db : FtpStore) (now : ℚ) (cache : FtpCache) : Prop :=
  ∀ p b, (p, b) ∈ cache → b = classify_free_to_play db now p

/-- A successful association-list lookup comes from a stored entry. -/
theorem lookup_mem : ∀ {cache : FtpCache} {p : Nat} {b : Bool},
    cache.lookup p = some b → (p, b) ∈ cache := by
  intro cache
  induction cache with
  | nil =>
    intro p b h
    simp [List.lookup] at h
  | cons hd tl ih =>
    intro p b h
    obtain ⟨k, v⟩ := hd
    rw [List.lookup] at h
    cases hpk : (p == k) with
    | true =>
      rw [hpk] at h
      cases h
      have : p = k := by simpa using hpk
      subst this
      exact List.mem_cons_self _ _
    | false =>
      rw [hpk] at h
      exact List.mem_cons_of_mem _ (ih h)

/-- With a consistent cache, the cached call returns exactly the cache-free
classification. -/
theorem is_free_to_play_fst (db : FtpStore) (now : ℚ) (cache : FtpCache)
    (pid : Nat) (hc : cache_consistent db now cache) :
    (is_free_to_play db now cache pid).1 = classify_free_to_play db now pid := by
  unfold is_free_to_play
  cases hl : cache.lookup pid with
  | some b =>
    exact hc pid b (lookup_mem hl)
  | none =>
    unfold classify_free_to_play
    split_ifs <;> rfl

/-- A classification call keeps the cache consistent. -/
theorem is_free_to_play_snd_consistent (db : FtpStore) (now : ℚ)
    (cache : FtpCache) (pid : Nat) (hc : cache_consistent db now cache) :
    cache_consistent db now (is_free_to_play db now cache pid).2 := by
  cases hl : cache.lookup pid with
  | some b =>
    simp only [is_free_to_play, hl]
    exact hc
  | none =>
    by_cases h1 : db.products.contains pid = true
    · by_cases h2 : (recent_24h db now pid).isEmpty = true
      · have hr : is_free_to_play db now cache pid = (false, cache) := by
          simp only [is_free_to_play, hl]
          rw [if_neg (by simpa using h1), if_pos h2]
        rw [hr]
        exact hc
      · have hr : is_free_to_play db now cache pid
            = ((recent_24h db now pid).any ftp_qualifies,
              (pid, (recent_24h db now pid).any ftp_qualifies) :: cache) := by
          simp only [is_free_to_play, hl]
          rw [if_neg (by simpa using h1), if_neg h2]
        intro p b hmem
        rw [hr] at hmem
        have hmem2 : (p, b) ∈ (pid, (recent_24h db now pid).any ftp_qualifies) :: cache :=
          hmem
        rcases List.mem_cons.1 hmem2 with heq | hmem3
        · injection heq with hp hb
          subst hp
          subst hb
          unfold classify_free_to_play
          rw [if_neg (by simpa using h1), if_neg h2]
        · exact hc p b hmem3
    · have hr : is_free_to_play db now cache pid = (false, cache) := by
        simp only [is_free_to_play, hl]
        rw [if_pos (by simpa using h1)]
      rw [hr]
      exact hc

/-! ## Claim C7: classification rule of the free to play filter -/

/-- Steam observation of product 7 at price 0.5, the older of the two. -/
def steam_old_cheap : PricePoint :=
  { id := 10, product_id := 7, marketplace_id := 1,
    marketplace_name := some "Steam", price := 1 / 2, currency := "USD",
    timestamp := 0 }

/-- Steam observation of product 7 at price 10, the most recent one. -/
def steam_new_paid : PricePoint :=
  { id := 11, product_id := 7, marketplace_id := 1,
    marketplace_name := some "Steam", price := 10, currency := "USD",
    timestamp := 1 }

/-- Store holding both Steam observations of product 7, both within the last
24 hours when now = 1. -/
def ftp_store_ex : FtpStore :=
  { products := [7], price_points := [steam_old_cheap, steam_new_paid] }

/-- The 24 hour window of the example store contains both observations. -/
theorem recent_24h_ftp_store_ex :
    recent_24h ftp_store_ex 1 7 = [steam_old_cheap, steam_new_paid] := by
  unfold recent_24h ftp_store_ex
  rw [List.filter_cons_of_pos, List.filter_cons_of_pos, List.filter_nil]
  · simp only [steam_new_paid, Bool.and_eq_true, beq_iff_eq, decide_eq_true_eq]
    norm_num
  · simp only [steam_old_cheap, Bool.and_eq_true, beq_iff_eq, decide_eq_true_eq]
    norm_num

/-- The older cheap Steam observation qualifies as a free to play signal. -/
theorem ftp_qualifies_steam_old_cheap : ftp_qualifies steam_old_cheap = true := by
  have hsteam : TRUSTED_MARKETPLACES.contains (str_lower "Steam") = true := by decide
  simp only [ftp_qualifies, steam_old_cheap, hsteam, Bool.true_and,
    decide_eq_true_eq]
  norm_num

/-- The recent full-price Steam observation does not qualify. -/
theorem ftp_qualifies_steam_new_paid : ftp_qualifies steam_new_paid = false := by
  simp only [ftp_qualifies, steam_new_paid, Bool.and_eq_false_iff, decide_eq_false_iff_not]
  right
  norm_num

/-- C7 (counterexample): the classifier marks product 7 excluded from a stale
cheap observation although the most recent observation of its only (trusted)
marketplace within 24 hours is at price 10: the claimed most-recent rule,
written from the words of the spec as classify_free_to_play_claim, says not
excluded, while the code returns excluded. -/
theorem is_free_to_play_ignores_recency :
    (is_free_to_play ftp_store_ex 1 [] 7).1 = true
    ∧ classify_free_to_play_claim ftp_store_ex 1 7 = false := by
  constructor
  · have hl : (([] : FtpCache)).lookup 7 = none := rfl
    simp only [is_free_to_play, hl]
    rw [if_neg (by decide), if_neg (by rw [recent_24h_ftp_store_ex]; decide)]
    rw [recent_24h_ftp_store_ex]
    simp [ftp_qualifies_steam_old_cheap]
  · unfold classify_free_to_play_claim
    rw [recent_24h_ftp_store_ex]
    simp only [List.any_cons, List.any_nil, List.all_cons, List.all_nil,
      ftp_qualifies_steam_old_cheap, ftp_qualifies_steam_new_paid,
      Bool.true_and, Bool.false_and, Bool.or_false, Bool.and_true]
    have h1 : (steam_new_paid.marketplace_id != steam_old_cheap.marketplace_id
        || decide (steam_new_paid.timestamp ≤ steam_old_cheap.timestamp)) = false := by
      have : decide (steam_new_paid.timestamp ≤ steam_old_cheap.timestamp) = false := by
        simp only [decide_eq_false_iff_not, steam_new_paid, steam_old_cheap]
        norm_num
      simp [this, steam_new_paid, steam_old_cheap]
    simp [h1]

/-- C7 (amended): with a cache consistent with the store, the classifier
returns true precisely when the product exists and some (not necessarily the
most recent) observation within the last 24 hours on a trusted marketplace
has a price strictly below 1; a product with no observation in the window is
never classified excluded; the call keeps the cache consistent; and when the
classification is computed from at least one windowed observation of an
existing product, later calls return the cached value unchanged, whatever the
store then contains. -/
theorem is_free_to_play_characterization (db : FtpStore) (now : ℚ)
    (cache : FtpCache) (pid : Nat) (hc : cache_consistent db now cache) :
    ((is_free_to_play db now cache pid).1 = true ↔
      (db.products.contains pid = true
        ∧ ∃ p ∈ recent_24h db now pid, ftp_qualifies p = true))
    ∧ (recent_24h db now pid = [] → (is_free_to_play db now cache pid).1 = false)
    ∧ cache_consistent db now (is_free_to_play db now cache pid).2
    ∧ (cache.lookup pid = none → db.products.contains pid = true →
        recent_24h db now pid ≠ [] →
        ∀ (db2 : FtpStore) (now2 : ℚ),
          (is_free_to_play db2 now2 (is_free_to_play db now cache pid).2 pid).1
            = (is_free_to_play db now cache pid).1) := by
  have hfst := is_free_to_play_fst db now cache pid hc
  refine ⟨?_, ?_, is_free_to_play_snd_consistent db now cache pid hc, ?_⟩
  · rw [hfst]
    unfold classify_free_to_play
    by_cases h1 : db.products.contains pid = true
    · rw [if_neg (by simpa using h1)]
      by_cases h2 : (recent_24h db now pid).isEmpty = true
      · rw [if_pos h2]
        simp only [List.isEmpty_iff] at h2
        simp [h2, h1]
      · rw [if_neg h2]
        have h1m : pid ∈ db.products := by simpa using h1
        simp [List.any_eq_true, h1m]
    · rw [if_pos (by simpa using h1)]
      have h1m : pid ∉ db.products := by simpa using h1
      simp [h1m]
  · intro hempty
    rw [hfst]
    unfold classify_free_to_play
    by_cases h1 : db.products.contains pid = true
    · rw [if_neg (by simpa using h1), if_pos (by simp [hempty])]
    · rw [if_pos (by simpa using h1)]
  · intro hl h1 hne db2 now2
    have hr : is_free_to_play db now cache pid
        = ((recent_24h db now pid).any ftp_qualifies,
          (pid, (recent_24h db now pid).any ftp_qualifies) :: cache) := by
      simp only [is_free_to_play, hl]
      rw [if_neg (by simpa using h1), if_neg (by simpa using hne)]
    rw [hr]
    have hl2 : ((pid, (recent_24h db now pid).any ftp_qualifies) :: cache).lookup pid
        = some ((recent_24h db now pid).any ftp_qualifies) := by
      simp [List.lookup]
    simp only [is_free_to_play, hl2]

/-- Witness for the C7 characterization at the example store with the empty
(trivially consistent) cache. -/
theorem is_free_to_play_characterization_witness :
    cache_consistent ftp_store_ex 1 []
    ∧ (((is_free_to_play ftp_store_ex 1 [] 7).1 = true ↔
        (ftp_store_ex.products.contains 7 = true
          ∧ ∃ p ∈ recent_24h ftp_store_ex 1 7, ftp_qualifies p = true))
      ∧ (recent_24h ftp_store_ex 1 7 = [] →
          (is_free_to_play ftp_store_ex 1 [] 7).1 = false)
      ∧ cache_consistent ftp_store_ex 1 (is_free_to_play ftp_store_ex 1 [] 7).2
      ∧ (([] : FtpCache).lookup 7 = none →
          ftp_store_ex.products.contains 7 = true →
          recent_24h ftp_store_ex 1 7 ≠ [] →
          ∀ (db2 : FtpStore) (now2 : ℚ),
            (is_free_to_play db2 now2 (is_free_to_play ftp_store_ex 1 [] 7).2 7).1
              = (is_free_to_play ftp_store_ex 1 [] 7).1)) :=
  ⟨fun _ _ h => absurd h (List.not_mem_nil _),
    is_free_to_play_characterization ftp_store_ex 1 [] 7
      (fun _ _ h => absurd h (List.not_mem_nil _))⟩

/-! ## Claim C4: cleanup of opportunities on excluded products -/

/-- Effect of one cleanup pass on one stored opportunity: an active
opportunity whose product is classified free to play becomes expired,
everything else is untouched. -/
def cleanup_transform (db : FtpStore) (now : ℚ) (o : StoredOpportunity) :
    StoredOpportunity :=
  if o.status = "active" ∧ classify_free_to_play db now o.product_id = true then
    { o with status := "expired" }
  else o

/-- Predicate counted by a cleanup pass. -/
def cleanup_counted (db : FtpStore) (now : ℚ) (o : StoredOpportunity) : Bool :=
  decide (o.status = "active") && classify_free_to_play db now o.product_id

/-- Unrolling of the cleanup fold from an arbitrary state whose cache is
consistent: the rows are mapped by cleanup_transform, the counter adds the
number of counted rows, and the final cache is again consistent. -/
theorem cleanup_fold_spec (db : FtpStore) (now : ℚ) :
    ∀ (l acc : List StoredOpportunity) (n : Nat) (cache : FtpCache),
      cache_consistent db now cache →
      (l.foldl (cleanup_step db now) { opps := acc, count := n, cache := cache }).opps
          = acc ++ l.map (cleanup_transform db now)
        ∧ (l.foldl (cleanup_step db now) { opps := acc, count := n, cache := cache }).count
          = n + l.countP (cleanup_counted db now)
        ∧ cache_consistent db now
          (l.foldl (cleanup_step db now) { opps := acc, count := n, cache := cache }).cache := by
  intro l
  induction l with
  | nil =>
    intro acc n cache hc
    simp [List.countP_nil]
    exact hc
  | cons o tl ih =>
    intro acc n cache hc
    have hfst := is_free_to_play_fst db now cache o.product_id hc
    have hsnd := is_free_to_play_snd_consistent db now cache o.product_id hc
    rw [List.foldl_cons]
    by_cases hact : o.status = "active"
    · by_cases hftp : classify_free_to_play db now o.product_id = true
      · have hstep : cleanup_step db now { opps := acc, count := n, cache := cache } o
            = { opps := acc ++ [{ o with status := "expired" }], count := n + 1,
                cache := (is_free_to_play db now cache o.product_id).2 } := by
          unfold cleanup_step
          rw [if_pos hact, if_pos (by rw [hfst]; exact hftp)]
        rw [hstep]
        obtain ⟨e1, e2, e3⟩ := ih (acc ++ [{ o with status := "expired" }]) (n + 1)
          (is_free_to_play db now cache o.product_id).2 hsnd
        refine ⟨?_, ?_, e3⟩
        · have ht : cleanup_transform db now o = { o with status := "expired" } := by
            unfold cleanup_transform
            rw [if_pos ⟨hact, hftp⟩]
          rw [e1, List.map_cons, List.append_assoc, ht, List.singleton_append]
        · rw [e2, List.countP_cons]
          have hcnt : cleanup_counted db now o = true := by
            unfold cleanup_counted
            rw [hftp]
            simp [hact]
          rw [hcnt]
          simp
          omega
      · have hstep : cleanup_step db now { opps := acc, count := n, cache := cache } o
            = { opps := acc ++ [o], count := n,
                cache := (is_free_to_play db now cache o.product_id).2 } := by
          unfold cleanup_step
          rw [if_pos hact, if_neg (by rw [hfst]; simpa using hftp)]
        rw [hstep]
        obtain ⟨e1, e2, e3⟩ := ih (acc ++ [o]) n
          (is_free_to_play db now cache o.product_id).2 hsnd
        refine ⟨?_, ?_, e3⟩
        · have ht : cleanup_transform db now o = o := by
            unfold cleanup_transform
            rw [if_neg]
            intro hand
            exact hftp hand.2
          rw [e1, List.map_cons, List.append_assoc, ht, List.singleton_append]
        · rw [e2, List.countP_cons]
          have hcnt : cleanup_counted db now o = false := by
            unfold cleanup_counted
            simp [hftp]
          rw [hcnt]
          simp
    · have hstep : cleanup_step db now { opps := acc, count := n, cache := cache } o
          = { opps := acc ++ [o], count := n, cache := cache } := by
        unfold cleanup_step
        rw [if_neg hact]
      rw [hstep]
      obtain ⟨e1, e2, e3⟩ := ih (acc ++ [o]) n cache hc
      refine ⟨?_, ?_, e3⟩
      · have ht : cleanup_transform db now o = o := by
          unfold cleanup_transform
          rw [if_neg]
          intro hand
          exact hact hand.1
        rw [e1, List.map_cons, List.append_assoc, ht, List.singleton_append]
      · rw [e2, List.countP_cons]
        have hcnt : cleanup_counted db now o = false := by
          unfold cleanup_counted
          simp [hact]
        rw [hcnt]
        simp

/-- One cleanup pass applied twice changes nothing the second time. -/
theorem cleanup_transform_idem (db : FtpStore) (now : ℚ) (o : StoredOpportunity) :
    cleanup_transform db now (cleanup_transform db now o) = cleanup_transform db now o
    ∧ cleanup_counted db now (cleanup_transform db now o) = false := by
  unfold cleanup_transform cleanup_counted
  by_cases h : o.status = "active" ∧ classify_free_to_play db now o.product_id = true
  · rw [if_pos h]
    constructor
    · rw [if_neg]
      intro hand
      simp at hand
    · simp
  · rw [if_neg h]
    constructor
    · rw [if_neg h]
    · by_cases hact : o.status = "active"
      · have hftp : ¬ classify_free_to_play db now o.product_id = true :=
          fun hf => h ⟨hact, hf⟩
        simp [hftp]
      · simp [hact]

/-- C4: under a cache consistent with the store, one cleanup call expires
exactly the active opportunities whose product is classified excluded and
returns their number, and the call is idempotent: an immediately repeated
call leaves every row unchanged and returns 0. -/
theorem cleanup_expires_excluded_and_is_idempotent (db : FtpStore) (now : ℚ)
    (cache : FtpCache) (opps : List StoredOpportunity)
    (hc : cache_consistent db now cache) :
    (cleanup_free_to_play_opportunities db now cache opps).opps
        = opps.map (cleanup_transform db now)
    ∧ (cleanup_free_to_play_opportunities db now cache opps).count
        = opps.countP (cleanup_counted db now)
    ∧ (∀ o ∈ opps, o.status = "active" →
        classify_free_to_play db now o.product_id = true →
        ({ o with status := "expired" } : StoredOpportunity)
          ∈ (cleanup_free_to_play_opportunities db now cache opps).opps)
    ∧ (cleanup_free_to_play_opportunities db now
          (cleanup_free_to_play_opportunities db now cache opps).cache
          (cleanup_free_to_play_opportunities db now cache opps).opps).opps
        = (cleanup_free_to_play_opportunities db now cache opps).opps
    ∧ (cleanup_free_to_play_opportunities db now
          (cleanup_free_to_play_opportunities db now cache opps).cache
          (cleanup_free_to_play_opportunities db now cache opps).opps).count
        = 0 := by
  obtain ⟨e1, e2, e3⟩ := cleanup_fold_spec db now opps [] 0 cache hc
  have h1 : (cleanup_free_to_play_opportunities db now cache opps).opps
      = opps.map (cleanup_transform db now) := by
    have h := e1
    rwa [List.nil_append] at h
  have h2 : (cleanup_free_to_play_opportunities db now cache opps).count
      = opps.countP (cleanup_counted db now) := by
    have h := e2
    rwa [Nat.zero_add] at h
  have h3 : cache_consistent db now
      (cleanup_free_to_play_opportunities db now cache opps).cache := e3
  obtain ⟨f1, f2, _⟩ := cleanup_fold_spec db now
    (cleanup_free_to_play_opportunities db now cache opps).opps [] 0
    (cleanup_free_to_play_opportunities db now cache opps).cache h3
  have g1 : (cleanup_free_to_play_opportunities db now
      (cleanup_free_to_play_opportunities db now cache opps).cache
      (cleanup_free_to_play_opportunities db now cache opps).opps).opps
      = ((cleanup_free_to_play_opportunities db now cache opps).opps).map
          (cleanup_transform db now) := by
    have h := f1
    rwa [List.nil_append] at h
  have g2 : (cleanup_free_to_play_opportunities db now
      (cleanup_free_to_play_opportunities db now cache opps).cache
      (cleanup_free_to_play_opportunities db now cache opps).opps).count
      = ((cleanup_free_to_play_opportunities db now cache opps).opps).countP
          (cleanup_counted db now) := by
    have h := f2
    rwa [Nat.zero_add] at h
  refine ⟨h1, h2, ?_, ?_, ?_⟩
  · intro o hmem hact hftp
    rw [h1]
    have ht : cleanup_transform db now o = { o with status := "expired" } := by
      unfold cleanup_transform
      rw [if_pos ⟨hact, hftp⟩]
    rw [← ht]
    exact List.mem_map_of_mem _ hmem
  · rw [g1, h1, List.map_map]
    exact List.map_congr_left (fun o _ => (cleanup_transform_idem db now o).1)
  · rw [g2, h1, List.countP_eq_zero]
    intro o hmem
    rw [List.mem_map] at hmem
    obtain ⟨o0, _, rfl⟩ := hmem
    simp [(cleanup_transform_idem db now o0).2]

/-- Witness for the cleanup theorem: one active opportunity on product 7 of
the example store (classified free to play), starting from the empty cache. -/
theorem cleanup_expires_excluded_and_is_idempotent_witness :
    cache_consistent ftp_store_ex 1 []
    ∧ ((cleanup_free_to_play_opportunities ftp_store_ex 1 []
          [{ id := 1, product_id := 7, status := "active" }]).opps
        = [({ id := 1, product_id := 7, status := "active" } : StoredOpportunity)].map
            (cleanup_transform ftp_store_ex 1)
      ∧ (cleanup_free_to_play_opportunities ftp_store_ex 1 []
          [{ id := 1, product_id := 7, status := "active" }]).count
        = [({ id := 1, product_id := 7, status := "active" } : StoredOpportunity)].countP
            (cleanup_counted ftp_store_ex 1)
      ∧ (∀ o ∈ [({ id := 1, product_id := 7, status := "active" } : StoredOpportunity)],
          o.status = "active" →
          classify_free_to_play ftp_store_ex 1 o.product_id = true →
          ({ o with status := "expired" } : StoredOpportunity)
            ∈ (cleanup_free_to_play_opportunities ftp_store_ex 1 []
                [{ id := 1, product_id := 7, status := "active" }]).opps)
      ∧ (cleanup_free_to_play_opportunities ftp_store_ex 1
            (cleanup_free_to_play_opportunities ftp_store_ex 1 []
              [{ id := 1, product_id := 7, status := "active" }]).cache
            (cleanup_free_to_play_opportunities ftp_store_ex 1 []
              [{ id := 1, product_id := 7, status := "active" }]).opps).opps
        = (cleanup_free_to_play_opportunities ftp_store_ex 1 []
            [{ id := 1, product_id := 7, status := "active" }]).opps
      ∧ (cleanup_free_to_play_opportunities ftp_store_ex 1
            (cleanup_free_to_play_opportunities ftp_store_ex 1 []
              [{ id := 1, product_id := 7, status := "active" }]).cache
            (cleanup_free_to_play_opportunities ftp_store_ex 1 []
              [{ id := 1, product_id := 7, status := "active" }]).opps).count
        = 0) :=
  ⟨fun _ _ h => absurd h (List.not_mem_nil _),
    cleanup_expires_excluded_and_is_idempotent ftp_store_ex 1 []
      [{ id := 1, product_id := 7, status := "active" }]
      (fun _ _ h => absurd h (List.not_mem_nil _))⟩

/-! ## Claim C2: currency handling of the detection pass -/

/-- Exchange-rate oracle holding exactly the EUR to USD rate 1.08. -/
def rates_eur_usd : RateOracle := fun a b =>
  if a = "EUR" ∧ b = "USD" then some (108 / 100) else none

/-- Observation of product 7 priced 100 EUR on marketplace 3. -/
def obs_eur : PricePoint :=
  { id := 3, product_id := 7, marketplace_id := 3,
    marketplace_name := some "MarketC", price := 100, currency := "EUR",
    timestamp := 0 }

/-- C2 (code_bug evidence): the settlement currency of config.py is USD, yet
the detection pass keeps observations priced in EUR unconverted (the guard
compares against the literal EUR while the conversion target defaults to
BASE_CURRENCY = USD). The 100 EUR observation enters every comparison as the
raw amount 100 even though converting it to the settlement currency with the
available rate yields 108, so comparisons mix EUR and USD amounts. -/
theorem detector_leaves_eur_price_unconverted :
    BASE_CURRENCY = "USD"
    ∧ obs_eur.currency ≠ BASE_CURRENCY
    ∧ detector_converted_price rates_eur_usd obs_eur = some 100
    ∧ convert rates_eur_usd obs_eur.price obs_eur.currency BASE_CURRENCY
        = some 108 := by
  refine ⟨rfl, by decide, ?_, ?_⟩
  · have h : ¬ (obs_eur.currency ≠ "EUR") := by decide
    unfold detector_converted_price
    rw [if_neg h]
    rfl
  · have h1 : obs_eur.currency ≠ BASE_CURRENCY := by decide
    have h2 : rates_eur_usd obs_eur.currency BASE_CURRENCY = some (108 / 100) := by
      unfold rates_eur_usd
      rw [if_pos (by decide)]
    unfold convert
    rw [if_neg h1, h2]
    unfold obs_eur
    norm_num

/-! ## Claim C5: deduplication and order independence of the detection pass

The fold with the processed-pairs state is proved equal to its order-free
restatement whenever the observation ids in the window are distinct (they are
database primary keys); deduplication and order independence follow. -/

/-- An accepted opportunity records the ids of its two price points, so its
pair key is the pair key of the evaluated pair. -/
theorem analyze_opportunity_ids {cfg : DetectorConfig} {configs : FeeConfigs}
    {risk_score : ℚ} {s t : PricePoint} {cb cs : ℚ} {o : Opportunity}
    (h : analyze_opportunity cfg configs risk_score s t cb cs = some o) :
    o.source_price_id = s.id ∧ o.target_price_id = t.id := by
  unfold analyze_opportunity at h
  split_ifs at h
  injection h with h
  subst h
  exact ⟨rfl, rfl⟩

/-- Ids recorded by a successful candidate evaluation. -/
theorem candidate_opp_ids {d : Detector} {s : PricePoint} {cb : ℚ}
    {t : PricePoint} {o : Opportunity} (h : candidate_opp d s cb t = some o) :
    o.source_price_id = s.id ∧ o.target_price_id = t.id
    ∧ opp_key o = pair_key s t := by
  unfold candidate_opp at h
  cases hcv : detector_converted_price d.rates t with
  | none =>
    simp only [hcv] at h
    exact Option.noConfusion h
  | some cs =>
    simp only [hcv] at h
    split_ifs at h
    obtain ⟨h1, h2⟩ := analyze_opportunity_ids h
    refine ⟨h1, h2, ?_⟩
    unfold opp_key pair_key
    rw [h1, h2]

/-- A successful candidate evaluation means the converted sell price exists
and strictly exceeds the converted buy price. -/
theorem candidate_opp_lt {d : Detector} {s : PricePoint} {cb : ℚ}
    {t : PricePoint} (h : (candidate_opp d s cb t).isSome = true) :
    ∃ cs, detector_converted_price d.rates t = some cs ∧ cb < cs := by
  unfold candidate_opp at h
  cases hcv : detector_converted_price d.rates t with
  | none =>
    simp only [hcv] at h
    simp at h
  | some cs =>
    simp only [hcv] at h
    split_ifs at h with hle
    · simp at h
    · exact ⟨cs, rfl, not_le.1 hle⟩

/-- A failed candidate leaves the inner-loop state untouched. -/
theorem target_step_eq_of_none {d : Detector} {s : PricePoint} {cb : ℚ}
    {t : PricePoint} (hc : candidate_opp d s cb t = none) (acc : DetState) :
    target_step d s cb acc t = acc := by
  unfold target_step
  unfold candidate_opp at hc
  cases hcv : detector_converted_price d.rates t with
  | none => simp only [hcv]
  | some cs =>
    simp only [hcv] at hc
    simp only [hcv]
    split_ifs at hc ⊢ with hle hkey
    · rfl
    · rfl
    · rw [hc]

/-- A successful candidate whose pair key is fresh appends the opportunity
and records the key. -/
theorem target_step_eq_of_some {d : Detector} {s : PricePoint} {cb : ℚ}
    {t : PricePoint} {o : Opportunity} (hc : candidate_opp d s cb t = some o)
    (acc : DetState) (hkey : pair_key s t ∉ acc.2) :
    target_step d s cb acc t = (acc.1 ++ [o], acc.2 ++ [pair_key s t]) := by
  unfold target_step
  unfold candidate_opp at hc
  cases hcv : detector_converted_price d.rates t with
  | none =>
    simp only [hcv] at hc
    exact Option.noConfusion hc
  | some cs =>
    simp only [hcv] at hc
    simp only [hcv]
    split_ifs at hc ⊢
    rw [hc]

/-- Unrolling of the inner loop from a state whose key set is disjoint from
the keys the loop will record, when those keys are themselves distinct. -/
theorem target_fold_spec (d : Detector) (s : PricePoint) (cb : ℚ) :
    ∀ (ts : List PricePoint) (opps : List Opportunity) (keys : List (Nat × Nat)),
      (∀ t ∈ ts, (candidate_opp d s cb t).isSome = true → pair_key s t ∉ keys) →
      (ts.filterMap (success_key d s cb)).Nodup →
      ts.foldl (target_step d s cb) (opps, keys)
        = (opps ++ ts.filterMap (candidate_opp d s cb),
          keys ++ ts.filterMap (success_key d s cb)) := by
  intro ts
  induction ts with
  | nil =>
    intro opps keys _ _
    simp
  | cons t tl ih =>
    intro opps keys hfresh hnd
    rw [List.foldl_cons]
    cases hc : candidate_opp d s cb t with
    | none =>
      have hsk : success_key d s cb t = none := by
        unfold success_key
        rw [hc]
        rfl
      rw [target_step_eq_of_none hc]
      rw [ih opps keys (fun t2 ht2 => hfresh t2 (List.mem_cons_of_mem _ ht2))
        (by rwa [List.filterMap_cons, hsk] at hnd)]
      rw [List.filterMap_cons, List.filterMap_cons, hc, hsk]
    | some o =>
      have hsk : success_key d s cb t = some (pair_key s t) := by
        unfold success_key
        rw [hc]
        rfl
      have hkey : pair_key s t ∉ keys :=
        hfresh t (List.mem_cons_self _ _) (by rw [hc]; rfl)
      rw [target_step_eq_of_some hc (opps, keys) hkey]
      rw [List.filterMap_cons, hsk] at hnd
      have hnotin : pair_key s t ∉ tl.filterMap (success_key d s cb) :=
        (List.nodup_cons.1 hnd).1
      have hfresh2 : ∀ t2 ∈ tl, (candidate_opp d s cb t2).isSome = true →
          pair_key s t2 ∉ keys ++ [pair_key s t] := by
        intro t2 ht2 hsome2
        rw [List.mem_append]
        rintro (hin | hin)
        · exact hfresh t2 (List.mem_cons_of_mem _ ht2) hsome2 hin
        · rw [List.mem_singleton] at hin
          apply hnotin
          rw [← hin]
          rw [List.mem_filterMap]
          refine ⟨t2, ht2, ?_⟩
          unfold success_key
          cases hc2 : candidate_opp d s cb t2 with
          | none =>
            rw [hc2] at hsome2
            simp at hsome2
          | some o2 => rfl
      rw [ih (opps ++ [o]) (keys ++ [pair_key s t]) hfresh2 (List.nodup_cons.1 hnd).2]
      rw [List.filterMap_cons, List.filterMap_cons, hc, hsk]
      rw [List.append_assoc, List.append_assoc, List.singleton_append,
        List.singleton_append]

/-- Combined source-side gate of the outer loop: none when the product is
free to play, the conversion fails, or the converted buy price exceeds
max_investment; otherwise the converted buy price. -/
def source_gate (d : Detector) (s : PricePoint) : Option ℚ :=
  if d.free_to_play s.product_id then none
  else
    match detector_converted_price d.rates s with
    | none => none
    | some cb => if cb > d.cfg.max_investment then none else some cb

/-- A gated-out source contributes nothing. -/
theorem source_gate_none_parts (d : Detector) (recent : List PricePoint)
    (s : PricePoint) (h : source_gate d s = none) :
    (∀ acc : DetState, source_step d recent acc s = acc)
    ∧ source_opps d recent s = [] ∧ source_keys d recent s = [] := by
  unfold source_gate at h
  by_cases h1 : d.free_to_play s.product_id = true
  · exact ⟨fun acc => by unfold source_step; rw [if_pos h1],
      by unfold source_opps; rw [if_pos h1],
      by unfold source_keys; rw [if_pos h1]⟩
  · rw [if_neg h1] at h
    cases hcv : detector_converted_price d.rates s with
    | none =>
      exact ⟨fun acc => by unfold source_step; rw [if_neg h1]; simp only [hcv],
        by unfold source_opps; rw [if_neg h1]; simp only [hcv],
        by unfold source_keys; rw [if_neg h1]; simp only [hcv]⟩
    | some cb =>
      simp only [hcv] at h
      split_ifs at h with hmax
      exact ⟨fun acc => by
          unfold source_step
          rw [if_neg h1]
          simp only [hcv]
          rw [if_pos hmax],
        by unfold source_opps; rw [if_neg h1]; simp only [hcv]; rw [if_pos hmax],
        by unfold source_keys; rw [if_neg h1]; simp only [hcv]; rw [if_pos hmax]⟩

/-- A source passing the gate runs the inner loop over its target query. -/
theorem source_gate_some_parts (d : Detector) (recent : List PricePoint)
    (s : PricePoint) (cb : ℚ) (h : source_gate d s = some cb) :
    (∀ acc : DetState,
      source_step d recent acc s = (targets_of recent s).foldl (target_step d s cb) acc)
    ∧ source_opps d recent s = (targets_of recent s).filterMap (candidate_opp d s cb)
    ∧ source_keys d recent s = (targets_of recent s).filterMap (success_key d s cb)
    ∧ detector_converted_price d.rates s = some cb := by
  unfold source_gate at h
  by_cases h1 : d.free_to_play s.product_id = true
  · rw [if_pos h1] at h
    exact Option.noConfusion h
  · rw [if_neg h1] at h
    cases hcv : detector_converted_price d.rates s with
    | none =>
      simp only [hcv] at h
      exact Option.noConfusion h
    | some cb2 =>
      simp only [hcv] at h
      split_ifs at h with hmax
      injection h with h
      subst h
      exact ⟨fun acc => by
          unfold source_step
          rw [if_neg h1]
          simp only [hcv]
          rw [if_neg hmax],
        by unfold source_opps; rw [if_neg h1]; simp only [hcv]; rw [if_neg hmax],
        by unfold source_keys; rw [if_neg h1]; simp only [hcv]; rw [if_neg hmax],
        rfl⟩

/-- Unrolling of the outer loop from a state whose key set is disjoint from
everything the remaining sources will record. -/
theorem source_fold_spec (d : Detector) (recent : List PricePoint) :
    ∀ (ss : List PricePoint) (opps : List Opportunity) (keys : List (Nat × Nat)),
      (∀ s ∈ ss, ∀ k ∈ source_keys d recent s, k ∉ keys) →
      (all_keys d recent ss).Nodup →
      ss.foldl (source_step d recent) (opps, keys)
        = (opps ++ ss.flatMap (source_opps d recent),
          keys ++ all_keys d recent ss) := by
  intro ss
  induction ss with
  | nil =>
    intro opps keys _ _
    simp [all_keys]
  | cons s tl ih =>
    intro opps keys hfresh hnd
    rw [List.foldl_cons]
    have hall : all_keys d recent (s :: tl)
        = source_keys d recent s ++ all_keys d recent tl := by
      unfold all_keys
      rw [List.flatMap_cons]
    rw [hall] at hnd
    rw [List.nodup_append] at hnd
    obtain ⟨nd1, nd2, disj⟩ := hnd
    cases hg : source_gate d s with
    | none =>
      obtain ⟨hstep, hopps, hkeys⟩ := source_gate_none_parts d recent s hg
      rw [hstep (opps, keys)]
      rw [ih opps keys (fun s2 hs2 => hfresh s2 (List.mem_cons_of_mem _ hs2)) nd2]
      rw [List.flatMap_cons, hall, hopps, hkeys]
      simp
    | some cb =>
      have hstep := (source_gate_some_parts d recent s cb hg).1
      have hopps := (source_gate_some_parts d recent s cb hg).2.1
      have hkeys := (source_gate_some_parts d recent s cb hg).2.2.1
      rw [hstep (opps, keys)]
      have hcond1 : ∀ t ∈ targets_of recent s,
          (candidate_opp d s cb t).isSome = true → pair_key s t ∉ keys := by
        intro t ht hsome
        apply hfresh s (List.mem_cons_self _ _)
        rw [hkeys, List.mem_filterMap]
        refine ⟨t, ht, ?_⟩
        unfold success_key
        cases hc2 : candidate_opp d s cb t with
        | none =>
          rw [hc2] at hsome
          simp at hsome
        | some o2 => rfl
      have hcond2 : ((targets_of recent s).filterMap (success_key d s cb)).Nodup := by
        rw [← hkeys]
        exact nd1
      rw [target_fold_spec d s cb (targets_of recent s) opps keys hcond1 hcond2]
      have hcond3 : ∀ s2 ∈ tl, ∀ k ∈ source_keys d recent s2,
          k ∉ keys ++ (targets_of recent s).filterMap (success_key d s cb) := by
        intro s2 hs2 k hk
        rw [List.mem_append]
        rintro (hin | hin)
        · exact hfresh s2 (List.mem_cons_of_mem _ hs2) k hk hin
        · rw [← hkeys] at hin
          apply disj hin
          unfold all_keys
          rw [List.mem_flatMap]
          exact ⟨s2, hs2, hk⟩
      rw [ih (opps ++ (targets_of recent s).filterMap (candidate_opp d s cb))
        (keys ++ (targets_of recent s).filterMap (success_key d s cb)) hcond3 nd2]
      rw [List.flatMap_cons, hall, hopps, hkeys]
      rw [List.append_assoc, List.append_assoc]

/-- With distinct pair keys across the whole pass, the fold with the
processed-pairs state equals the order-free restatement. -/
theorem find_eq_unordered (d : Detector) (recent : List PricePoint)
    (hnd : (all_keys d recent recent).Nodup) :
    find_opportunities d (.ok recent) = find_opportunities_unordered d recent := by
  show (recent.foldl (source_step d recent) ([], [])).1 = _
  rw [source_fold_spec d recent recent [] []
    (fun s _ k _ hk => absurd hk (List.not_mem_nil k)) hnd]
  unfold find_opportunities_unordered
  rw [List.nil_append]

/-- Membership in the target query. -/
theorem mem_targets_of {recent : List PricePoint} {s t : PricePoint}
    (h : t ∈ targets_of recent s) :
    t ∈ recent ∧ t.product_id = s.product_id
    ∧ t.marketplace_id ≠ s.marketplace_id := by
  unfold targets_of at h
  rw [List.mem_filter] at h
  have h2 := h.2
  simp only [Bool.and_eq_true, beq_iff_eq, bne_iff_ne] at h2
  exact ⟨h.1, h2.1, h2.2⟩

/-- The keys a source records are the pair keys of its successful targets. -/
theorem filterMap_success_eq (d : Detector) (s : PricePoint) (cb : ℚ)
    (ts : List PricePoint) :
    ts.filterMap (success_key d s cb)
      = (ts.filter (fun t => (candidate_opp d s cb t).isSome)).map (pair_key s) := by
  induction ts with
  | nil => rfl
  | cons t tl ih =>
    cases hc : candidate_opp d s cb t with
    | none =>
      rw [List.filterMap_cons, List.filter_cons]
      have hsk : success_key d s cb t = none := by
        unfold success_key
        rw [hc]
        rfl
      rw [hsk, if_neg (by rw [hc]; simp), ih]
    | some o =>
      rw [List.filterMap_cons, List.filter_cons]
      have hsk : success_key d s cb t = some (pair_key s t) := by
        unfold success_key
        rw [hc]
        rfl
      rw [hsk, if_pos (by rw [hc]; rfl), List.map_cons, ih]

/-- Equal unordered pair keys mean equal id sets. -/
theorem pair_key_cases {a b c e : PricePoint}
    (h : pair_key a b = pair_key c e) :
    (a.id = c.id ∧ b.id = e.id) ∨ (a.id = e.id ∧ b.id = c.id) := by
  unfold pair_key at h
  rw [Prod.mk.injEq] at h
  obtain ⟨h1, h2⟩ := h
  omega

/-- Decomposition of a recorded key: the source passed the gate and some
target candidate succeeded with this pair key. -/
theorem mem_source_keys {d : Detector} {recent : List PricePoint}
    {s : PricePoint} {k : Nat × Nat} (h : k ∈ source_keys d recent s) :
    ∃ cb, source_gate d s = some cb ∧
      ∃ t ∈ targets_of recent s,
        (candidate_opp d s cb t).isSome = true ∧ k = pair_key s t := by
  cases hg : source_gate d s with
  | none =>
    rw [(source_gate_none_parts d recent s hg).2.2] at h
    exact absurd h (List.not_mem_nil k)
  | some cb =>
    rw [(source_gate_some_parts d recent s cb hg).2.2.1] at h
    rw [filterMap_success_eq] at h
    rw [List.mem_map] at h
    obtain ⟨t, ht, hk⟩ := h
    rw [List.mem_filter] at ht
    exact ⟨cb, rfl, t, ht.1, ht.2, hk.symm⟩

/-- Distinct observation ids make all pair keys recorded in one pass
distinct. -/
theorem all_keys_nodup (d : Detector) (recent : List PricePoint)
    (hids : (recent.map PricePoint.id).Nodup) :
    (all_keys d recent recent).Nodup := by
  have hinj : ∀ x ∈ recent, ∀ y ∈ recent, x.id = y.id → x = y :=
    List.inj_on_of_nodup_map hids
  have hrec : recent.Nodup := hids.of_map
  unfold all_keys
  rw [List.nodup_flatMap]
  constructor
  · intro s hs
    cases hg : source_gate d s with
    | none =>
      rw [(source_gate_none_parts d recent s hg).2.2]
      exact List.nodup_nil
    | some cb =>
      rw [(source_gate_some_parts d recent s cb hg).2.2.1, filterMap_success_eq]
      apply List.Nodup.map_on
      · intro t1 ht1 t2 ht2 heq
        rw [List.mem_filter] at ht1 ht2
        obtain ⟨htm1, _, hmk1⟩ := mem_targets_of ht1.1
        obtain ⟨htm2, _, _⟩ := mem_targets_of ht2.1
        have hne1 : t1.id ≠ s.id := by
          intro he
          exact hmk1 (by rw [hinj t1 htm1 s hs he])
        rcases pair_key_cases heq with ⟨_, hbe⟩ | ⟨hae, hbc⟩
        · exact hinj t1 htm1 t2 htm2 hbe
        · exact absurd hbc.symm (fun he => hne1 he.symm)
      · exact ((hrec.filter _).filter _)
  · have hpw : recent.Pairwise (fun a b => a.id ≠ b.id) := by
      have := hids
      rw [List.Nodup, List.pairwise_map] at this
      exact this
    refine List.Pairwise.imp_of_mem ?_ hpw
    intro a b ha hb hne
    intro k hka hkb
    obtain ⟨cba, hga, ta, hta, hsa, hkeqa⟩ := mem_source_keys hka
    obtain ⟨cbb, hgb, tb, htb, hsb, hkeqb⟩ := mem_source_keys hkb
    obtain ⟨hta_rec, _, hta_mkt⟩ := mem_targets_of hta
    obtain ⟨htb_rec, _, htb_mkt⟩ := mem_targets_of htb
    have hkeq : pair_key a ta = pair_key b tb := by rw [← hkeqa, ← hkeqb]
    have hconva := (source_gate_some_parts d recent a cba hga).2.2.2
    have hconvb := (source_gate_some_parts d recent b cbb hgb).2.2.2
    obtain ⟨csa, hconvta, hlta⟩ := candidate_opp_lt hsa
    obtain ⟨csb, hconvtb, hltb⟩ := candidate_opp_lt hsb
    rcases pair_key_cases hkeq with ⟨hab, _⟩ | ⟨hatb, htab⟩
    · exact hne hab
    · have he1 : a = tb := hinj a ha tb htb_rec hatb
      have he2 : ta = b := hinj ta hta_rec b hb htab
      rw [← he1] at hconvtb
      rw [he2] at hconvta
      rw [hconva] at hconvtb
      rw [hconvb] at hconvta
      injection hconvtb with hv1
      injection hconvta with hv2
      rw [← hv1] at hltb
      rw [← hv2] at hlta
      exact absurd (lt_trans hlta hltb) (lt_irrefl cba)

/-- The emitted opportunities of one source carry exactly its recorded pair
keys. -/
theorem map_opp_key_filterMap (d : Detector) (s : PricePoint) (cb : ℚ)
    (ts : List PricePoint) :
    (ts.filterMap (candidate_opp d s cb)).map opp_key
      = ts.filterMap (success_key d s cb) := by
  induction ts with
  | nil => rfl
  | cons t tl ih =>
    cases hc : candidate_opp d s cb t with
    | none =>
      have hsk : success_key d s cb t = none := by
        unfold success_key
        rw [hc]
        rfl
      simp only [List.filterMap_cons, hc, hsk]
      exact ih
    | some o =>
      have hsk : success_key d s cb t = some (pair_key s t) := by
        unfold success_key
        rw [hc]
        rfl
      simp only [List.filterMap_cons, hc, hsk, List.map_cons]
      rw [ih, (candidate_opp_ids hc).2.2]

/-- The pair keys of a whole pass are exactly the recorded keys. -/
theorem map_opp_key_flatMap (d : Detector) (recent ss : List PricePoint) :
    (ss.flatMap (source_opps d recent)).map opp_key = all_keys d recent ss := by
  induction ss with
  | nil => rfl
  | cons s tl ih =>
    have hall : all_keys d recent (s :: tl)
        = source_keys d recent s ++ all_keys d recent tl := by
      unfold all_keys
      rw [List.flatMap_cons]
    rw [List.flatMap_cons, List.map_append, ih, hall]
    congr 1
    cases hg : source_gate d s with
    | none =>
      rw [(source_gate_none_parts d recent s hg).2.1,
        (source_gate_none_parts d recent s hg).2.2]
      rfl
    | some cb =>
      rw [(source_gate_some_parts d recent s cb hg).2.1,
        (source_gate_some_parts d recent s cb hg).2.2.1]
      exact map_opp_key_filterMap d s cb (targets_of recent s)

/-- The opportunities one source contributes depend on the window only up to
permutation. -/
theorem source_opps_perm {d : Detector} {recent recent2 : List PricePoint}
    (hp : recent.Perm recent2) (s : PricePoint) (o : Opportunity) :
    o ∈ source_opps d recent s ↔ o ∈ source_opps d recent2 s := by
  cases hg : source_gate d s with
  | none =>
    rw [(source_gate_none_parts d recent s hg).2.1,
      (source_gate_none_parts d recent2 s hg).2.1]
  | some cb =>
    rw [(source_gate_some_parts d recent s cb hg).2.1,
      (source_gate_some_parts d recent2 s cb hg).2.1]
    have hpf : (targets_of recent s).Perm (targets_of recent2 s) := hp.filter _
    exact (hpf.filterMap _).mem_iff

/-- C5: in one run over a window with distinct observation ids, at most one
opportunity is emitted per unordered pair key (min id, max id), and the set
of emitted opportunities does not depend on the iteration order of the
observation list. -/
theorem find_opportunities_dedup_and_order_independent (d : Detector)
    (recent recent2 : List PricePoint) (hperm : recent.Perm recent2)
    (hids : (recent.map PricePoint.id).Nodup) :
    ((find_opportunities d (.ok recent)).map opp_key).Nodup
    ∧ ∀ o : Opportunity,
        o ∈ find_opportunities d (.ok recent)
          ↔ o ∈ find_opportunities d (.ok recent2) := by
  have hids2 : (recent2.map PricePoint.id).Nodup := by
    rw [← List.Perm.nodup_iff (hperm.map PricePoint.id)]
    exact hids
  have h1 := find_eq_unordered d recent (all_keys_nodup d recent hids)
  have h2 := find_eq_unordered d recent2 (all_keys_nodup d recent2 hids2)
  constructor
  · rw [h1]
    unfold find_opportunities_unordered
    rw [map_opp_key_flatMap]
    exact all_keys_nodup d recent hids
  · intro o
    rw [h1, h2]
    unfold find_opportunities_unordered
    rw [List.mem_flatMap, List.mem_flatMap]
    constructor
    · rintro ⟨s, hs, ho⟩
      exact ⟨s, hperm.mem_iff.1 hs, (source_opps_perm hperm s o).1 ho⟩
    · rintro ⟨s, hs, ho⟩
      exact ⟨s, hperm.mem_iff.2 hs, (source_opps_perm hperm s o).2 ho⟩

/-- Witness for C5: the two-observation window of product 7 in both orders. -/
theorem find_opportunities_dedup_and_order_independent_witness :
    ([obs_a, obs_b].Perm [obs_b, obs_a]
      ∧ (([obs_a, obs_b].map PricePoint.id)).Nodup)
    ∧ (((find_opportunities example_detector (.ok [obs_a, obs_b])).map opp_key).Nodup
      ∧ ∀ o : Opportunity,
          o ∈ find_opportunities example_detector (.ok [obs_a, obs_b])
            ↔ o ∈ find_opportunities example_detector (.ok [obs_b, obs_a])) :=
  ⟨⟨List.Perm.swap obs_b obs_a [], by decide⟩,
    find_opportunities_dedup_and_order_independent example_detector
      [obs_a, obs_b] [obs_b, obs_a] (List.Perm.swap obs_b obs_a []) (by decide)⟩

end Arbitrage
